import Mathlib

/-!
# Verification of the pylontech-bms-rs frame codec and payload decoders

Shallow embedding of `pylon-lfp-protocol` (files `src/util.rs`, `src/frame.rs`,
`src/commands/get_analog_value.rs`) into Lean 4.

Bytes are modelled as `Nat` (with explicit `% 256` / `% 65536` / `% 2^32` where
the Rust machine arithmetic wraps), byte buffers and streams as `List Nat`, and
fallible Rust functions as `Except`-valued functions.  Rust code that can panic
(slice indexing / `split_at` out of bounds) is modelled with a dedicated result
type `RRes` that has an explicit `crash` outcome.
-/

namespace Pylon

/-! ## Hex codec (`src/util.rs`)

`u8_encode_hex` / `u16_encode_hex` format a value as fixed-width uppercase
hexadecimal ASCII (`{:02X}` / `{:04X}`). -/

/-- ASCII code of the uppercase hex digit for a nibble `n < 16`
(`0`–`9` are 48–57, `A`–`F` are 65–70). -/
def hexDigit (n : Nat) : Nat :=
  if n < 10 then 48 + n else 55 + n

/-- `u8_encode_hex` from `util.rs`: the two uppercase hex ASCII bytes of a `u8`. -/
def u8_encode_hex (v : Nat) : List Nat :=
  [hexDigit (v / 16 % 16), hexDigit (v % 16)]

/-- `u16_encode_hex` from `util.rs`: the four uppercase hex ASCII bytes of a `u16`. -/
def u16_encode_hex (v : Nat) : List Nat :=
  [hexDigit (v / 4096 % 16), hexDigit (v / 256 % 16), hexDigit (v / 16 % 16), hexDigit (v % 16)]

/-- Hex decode error. Modelled from the spec: the type `DecodeError` (variants for
a non-hex-digit byte and for an unknown enum variant, used by
`Cid1::decode_hex` / `ResponseCode::decode_hex`) is referenced by
`src/frame.rs` but its definition is not among the provided sources.
Per spec §4.1 decoding "fails with `HexDecodeError` when characters are not
valid ASCII hex digits"; §7 adds `UnsupportedControlIdentifier` for a decoded
value that "does not match any known identifier". -/
inductive DecodeError where
  | InvalidHex
  | UnknownVariant
  deriving DecidableEq, Repr

/-- Modelled from the spec: value of one ASCII hex digit (`0-9`, `A-F`, `a-f`),
failing on any other byte. The decoding helpers `u8_from_hex` / `u16_from_hex`
used by `src/frame.rs` are not among the provided sources (spec §4.1). -/
def hexDigitVal (c : Nat) : Option Nat :=
  if 48 ≤ c ∧ c ≤ 57 then some (c - 48)
  else if 65 ≤ c ∧ c ≤ 70 then some (c - 55)
  else if 97 ≤ c ∧ c ≤ 102 then some (c - 87)
  else none

/-- Modelled from the spec: `u8_from_hex` (spec §4.1 `decode_byte`), decoding two
ASCII hex chars into one byte, failing with a hex decode error on a non-digit. -/
def u8_from_hex (a b : Nat) : Except DecodeError Nat :=
  match hexDigitVal a, hexDigitVal b with
  | some hi, some lo => .ok (hi * 16 + lo)
  | _, _ => .error .InvalidHex

/-- Modelled from the spec: `u16_from_hex` (spec §4.1 `decode_u16`), decoding four
ASCII hex chars into one 16-bit value. -/
def u16_from_hex (a b c d : Nat) : Except DecodeError Nat :=
  match hexDigitVal a, hexDigitVal b, hexDigitVal c, hexDigitVal d with
  | some n3, some n2, some n1, some n0 => .ok (n3 * 4096 + n2 * 256 + n1 * 16 + n0)
  | _, _, _, _ => .error .InvalidHex

/-! ## Checksum engine (`src/frame.rs` `Checksum`, `src/util.rs` `calculate_checksum`) -/

/-- `Checksum::update`: add each byte into the 32-bit accumulator
(`self.acc += *value as u32`, wrapping at `2^32`). -/
def Checksum.update (acc : Nat) (data : List Nat) : Nat :=
  data.foldl (fun a x => (a + x) % 4294967296) acc

/-- `Checksum::finalize`: `!(acc % 65536) + 1` in 32-bit arithmetic
(bitwise complement is `2^32 - 1 - m`; the `+ 1` wraps at `2^32`),
then truncated `as u16`. -/
def Checksum.finalize (acc : Nat) : Nat :=
  ((4294967295 - acc % 65536) + 1) % 4294967296 % 65536

/-- `util::calculate_checksum`: fold the byte sum, then the same
complement-and-increment finalisation. -/
def calculate_checksum (data : List Nat) : Nat :=
  let sum := data.foldl (fun acc x => (acc + x) % 4294967296) 0
  ((4294967295 - sum % 65536) + 1) % 4294967296 % 65536

/-! ## Length field (`src/frame.rs` `InfoLength`)

The packed `u16` is modelled as a bare `Nat < 65536`. -/

/-- `InfoLength::new`: pack a 12-bit length with its 4-bit nibble-sum
self-checksum. `checksum = (!(sum % 16) & 0xF) + 1` gives `16 - sum % 16`
(in `[1, 16]`); `checksum << 12` on `u16` drops the overflowing bit, and the
final `+ length` is `u16` addition. -/
def InfoLength.new (len : Nat) : Nat :=
  let l := len % 65536
  let nibble1 := l % 16
  let nibble2 := l / 16 % 16
  let nibble3 := l / 256 % 16
  let sum := nibble1 + nibble2 + nibble3
  let checksum := 16 - sum % 16
  (checksum * 4096 % 65536 + l) % 65536

/-- `InfoLength::length`: the low 12 bits of the packed value. -/
def InfoLength.length (v : Nat) : Nat :=
  v % 4096

/-- `InfoLength::validate`: recompute `new (length v)` and compare. -/
def InfoLength.validate (v : Nat) : Bool :=
  InfoLength.new (InfoLength.length v) == v

/-- `InfoLength::encode_hex`. -/
def InfoLength.encode_hex (v : Nat) : List Nat :=
  u16_encode_hex v

/-- `InfoLength::decode_hex`: parse the packed value as a `u16`. -/
def InfoLength.decode_hex (a b c d : Nat) : Except DecodeError Nat :=
  u16_from_hex a b c d

/-! ## Control identifiers and errors (`src/frame.rs`, `src/lib.rs`) -/

/-- `CID1` control identifier; the only specified variant is `BatteryData = 0x46`. -/
inductive Cid1 where
  | BatteryData
  deriving DecidableEq, Repr

/-- Numeric code of a `Cid1`. -/
def Cid1.code : Cid1 → Nat
  | .BatteryData => 0x46

/-- `CID2` command codes. -/
inductive CommandCode where
  | GetAnalogValue
  | GetAlarmInfo
  | GetSystemParameter
  | GetProtocolVersion
  | GetManufacturerInfo
  | GetQuantityOfPack
  | SetCommunicationRate
  | GetCharge
  | GetSerialNumber
  | SetChargeInfo
  | TurnOff
  | GetFirmwareInfo
  | ControlCommand
  deriving DecidableEq, Repr

/-- Numeric code of a `CommandCode` (the enum discriminants in `src/frame.rs`). -/
def CommandCode.code : CommandCode → Nat
  | .GetAnalogValue => 0x42
  | .GetAlarmInfo => 0x44
  | .GetSystemParameter => 0x47
  | .GetProtocolVersion => 0x4f
  | .GetManufacturerInfo => 0x51
  | .GetQuantityOfPack => 0x90
  | .SetCommunicationRate => 0x91
  | .GetCharge => 0x92
  | .GetSerialNumber => 0x93
  | .SetChargeInfo => 0x94
  | .TurnOff => 0x95
  | .GetFirmwareInfo => 0x96
  | .ControlCommand => 0x99

/-- `CID2` response codes. -/
inductive ResponseCode where
  | Normal
  | VerError
  | ChksumErr
  | LChksumErr
  | Cid2Err
  | CommandFormatErr
  | InvalidData
  | AdrErr
  | CommunicationErr
  deriving DecidableEq, Repr

/-- Numeric code of a `ResponseCode` (the enum discriminants in `src/frame.rs`). -/
def ResponseCode.code : ResponseCode → Nat
  | .Normal => 0x00
  | .VerError => 0x01
  | .ChksumErr => 0x02
  | .LChksumErr => 0x03
  | .Cid2Err => 0x04
  | .CommandFormatErr => 0x05
  | .InvalidData => 0x06
  | .AdrErr => 0x90
  | .CommunicationErr => 0x91

/-- `ResponseCode::is_err`: every code other than `Normal`. -/
def ResponseCode.is_err (r : ResponseCode) : Bool :=
  r != .Normal

/-- `ResponseCode::decode_hex`: hex-decode one byte and match it against the
known response codes. -/
def ResponseCode.decode_hex (a b : Nat) : Except DecodeError ResponseCode :=
  match u8_from_hex a b with
  | .error e => .error e
  | .ok value =>
    match value with
    | 0x00 => .ok .Normal
    | 0x01 => .ok .VerError
    | 0x02 => .ok .ChksumErr
    | 0x03 => .ok .LChksumErr
    | 0x04 => .ok .Cid2Err
    | 0x05 => .ok .CommandFormatErr
    | 0x06 => .ok .InvalidData
    | 0x90 => .ok .AdrErr
    | 0x91 => .ok .CommunicationErr
    | _ => .error .UnknownVariant

/-- `Cid1::decode_hex`: hex-decode one byte and require it to be `0x46`. -/
def Cid1.decode_hex (a b : Nat) : Except DecodeError Cid1 :=
  match u8_from_hex a b with
  | .error e => .error e
  | .ok value => if value == 0x46 then .ok .BatteryData else .error .UnknownVariant

/-- `CID2`: either a command code (send direction) or a response code (receive). -/
inductive Cid2 where
  | Command (c : CommandCode)
  | Response (r : ResponseCode)
  deriving DecidableEq, Repr

/-- The crate-level error enum `Error` from `src/lib.rs` (the `Transport`
variant never arises for the pure in-memory reader/writer modelled here). -/
inductive Error where
  | Response (r : ResponseCode)
  | InvalidInput
  | Cecksum
  | Internal
  | UnsupportedControlIdentifier
  deriving DecidableEq, Repr

/-- The `From<DecodeError>` conversion applied by the `?` operator in
`Frame::decode`. Modelled from the spec: §7 says a hex decode failure is
"always propagated up as `InvalidInput`" and an unknown `CID1`/`CID2` value
surfaces as `UnsupportedControlIdentifier`. -/
def Error.ofDecode : DecodeError → Error
  | .InvalidHex => .InvalidInput
  | .UnknownVariant => .UnsupportedControlIdentifier

/-- Outcome of running a piece of Rust code that may return a value, return an
error, or panic (out-of-bounds slice index / `split_at` past the end). -/
inductive RRes (ε α : Type) where
  | ok (a : α)
  | err (e : ε)
  | crash
  deriving DecidableEq, Repr

/-! ## Version (`src/frame.rs` `Version`) -/

/-- `Version::new`: `(major << 4) ^ (minor & 0b1111)` on `u8`. -/
def Version.new (major minor : Nat) : Nat :=
  Nat.xor (major % 256 * 16 % 256) (minor % 16)

/-- `Version::decode_hex`. -/
def Version.decode_hex (a b : Nat) : Except DecodeError Nat :=
  u8_from_hex a b

/-! ## Frame (`src/frame.rs` `Frame`) -/

/-- A protocol frame. `ver` is the raw `Version` byte, `length` the packed
`InfoLength` value, `info` the unencoded payload borrowed from the caller. -/
structure Frame where
  ver : Nat
  adr : Nat
  cid1 : Cid1
  cid2 : Cid2
  length : Nat
  info : List Nat
  deriving DecidableEq, Repr

/-- `Frame::SOI` start marker (`~`). -/
def Frame.SOI : Nat := 0x7E

/-- `Frame::EOI` end marker (carriage return). -/
def Frame.EOI : Nat := 0x0D

/-- `Frame::new`: `length` is computed as `info.len() as u16 * 2`
(truncating `as u16` cast, then wrapping `u16` multiplication). -/
def Frame.new (ver adr : Nat) (cid2 : Cid2) (info : List Nat) : Frame :=
  { ver := ver
    adr := adr
    cid1 := .BatteryData
    cid2 := cid2
    length := InfoLength.new (info.length % 65536 * 2 % 65536)
    info := info }

/-- `Frame::encode`: takes the bytes already written to the output writer and
returns the final output together with the result. The two failure paths
(`info` longer than `MAX_UNENCODED_PAYLOAD_LEN = 2047`, and a non-`Command`
`cid2`) return before anything is written. On success the output gains
`SOI`, the hex-encoded header fields, each payload byte hex-encoded, the
finalized checksum over all hex-encoded fields, and `EOI`. -/
def Frame.encode (f : Frame) (out : List Nat) : List Nat × Except Error Unit :=
  if f.info.length > 2047 then (out, .error .InvalidInput)
  else
    match f.cid2 with
    | .Response _ => (out, .error .Internal)
    | .Command cmd =>
      let ver := u8_encode_hex f.ver
      let adr := u8_encode_hex f.adr
      let cid1 := u8_encode_hex f.cid1.code
      let cid2 := u8_encode_hex cmd.code
      let len := InfoLength.encode_hex f.length
      let data := (f.info.map u8_encode_hex).flatten
      let acc := Checksum.update 0 (ver ++ adr ++ cid1 ++ cid2 ++ len ++ data)
      let chksum := Checksum.finalize acc
      (out ++ [Frame.SOI] ++ ver ++ adr ++ cid1 ++ cid2 ++ len ++ data
          ++ u16_encode_hex chksum ++ [Frame.EOI],
       .ok ())

/-- The payload loop of `Frame::decode`: read `count` hex pairs from the
stream, feeding each pair into the checksum before hex-decoding it.
Returns the decoded bytes, the remaining stream and the new accumulator. -/
def decodePayloadLoop : Nat → List Nat → Nat → Except Error (List Nat × List Nat × Nat)
  | 0, s, acc => .ok ([], s, acc)
  | count + 1, a :: b :: s, acc =>
    let acc := Checksum.update acc [a, b]
    match u8_from_hex a b with
    | .error e => .error (Error.ofDecode e)
    | .ok byte =>
      match decodePayloadLoop count s acc with
      | .error e => .error e
      | .ok (bytes, s, acc) => .ok (byte :: bytes, s, acc)
  | _ + 1, _, _ => .error .InvalidInput

/-- `Frame::decode` over a pure byte-stream reader (`stream`) and a
caller-supplied payload buffer (`buf`).

Faithful to `src/frame.rs`: a missing or wrong `SOI` byte fails with
`InvalidInput`; every `read_exact` short read maps to `InvalidInput`;
the decoded length field must `validate()` (`Cecksum` otherwise);
a buffer shorter than `length/2` fails with `Internal`;
the transmitted checksum must equal the accumulated one (`Cecksum` otherwise);
a non-`Normal` response code fails with `Response`;
and the returned frame is `Frame::new` applied to `&info_buf[..length]` —
the **encoded** length, not the decoded byte count `length/2` — which panics
(`crash`) when `length` exceeds the buffer length. -/
def Frame.decode (stream : List Nat) (buf : List Nat) : RRes Error Frame :=
  match stream with
  | [] => .err .InvalidInput
  | soi :: s0 =>
  if soi != Frame.SOI then .err .InvalidInput else
  -- version
  match s0 with
  | v1 :: v2 :: s1 =>
    let acc := Checksum.update 0 [v1, v2]
    match Version.decode_hex v1 v2 with
    | .error e => .err (Error.ofDecode e)
    | .ok ver =>
    -- address
    match s1 with
    | a1 :: a2 :: s2 =>
      let acc := Checksum.update acc [a1, a2]
      match u8_from_hex a1 a2 with
      | .error e => .err (Error.ofDecode e)
      | .ok adr =>
      -- CID1
      match s2 with
      | c1 :: c2 :: s3 =>
        let acc := Checksum.update acc [c1, c2]
        match Cid1.decode_hex c1 c2 with
        | .error e => .err (Error.ofDecode e)
        | .ok _ =>
        -- CID2 (always read as a response code)
        match s3 with
        | d1 :: d2 :: s4 =>
          let acc := Checksum.update acc [d1, d2]
          match ResponseCode.decode_hex d1 d2 with
          | .error e => .err (Error.ofDecode e)
          | .ok cid2 =>
          -- LENGTH
          match s4 with
          | l1 :: l2 :: l3 :: l4 :: s5 =>
            let acc := Checksum.update acc [l1, l2, l3, l4]
            match InfoLength.decode_hex l1 l2 l3 l4 with
            | .error e => .err (Error.ofDecode e)
            | .ok length =>
            if !InfoLength.validate length then .err .Cecksum else
            if buf.length < InfoLength.length length / 2 then .err .Internal else
            match decodePayloadLoop (InfoLength.length length / 2) s5 acc with
            | .error e => .err e
            | .ok res =>
            let decoded := res.1
            let acc := res.2.2
            -- CHKSUM (not itself fed into the checksum)
            match res.2.1 with
            | k1 :: k2 :: k3 :: k4 :: _ =>
              match u16_from_hex k1 k2 k3 k4 with
              | .error e => .err (Error.ofDecode e)
              | .ok chksum =>
              if chksum != Checksum.finalize acc then .err .Cecksum else
              if cid2.is_err then .err (.Response cid2) else
              let filled := decoded ++ buf.drop (InfoLength.length length / 2)
              if InfoLength.length length ≤ filled.length then
                .ok (Frame.new ver adr (.Response cid2)
                      (filled.take (InfoLength.length length)))
              else .crash
            | _ => .err .InvalidInput
          | _ => .err .InvalidInput
        | _ => .err .InvalidInput
      | _ => .err .InvalidInput
    | _ => .err .InvalidInput
  | _ => .err .InvalidInput

/-! ## Analog-value payload decoder (`src/commands/get_analog_value.rs`)

Fixed-point wrappers (`Volt`, `Temperature`, …) are two big-endian bytes; we
model them by their raw integer value (`u16` as `Nat`, `i16` as `Int`). -/

/-- `AnalogValueParseError` from `get_analog_value.rs`. -/
inductive AVErr where
  | InvalidInput
  deriving DecidableEq, Repr

/-- Read `count` big-endian `u16` raw values off the front of the buffer
(zerocopy `ref_from_prefix_with_elems` for a slice of 2-byte elements):
`none` when fewer than `2 * count` bytes remain. -/
def readU16s : Nat → List Nat → Option (List Nat × List Nat)
  | 0, s => some ([], s)
  | count + 1, hi :: lo :: s =>
    match readU16s count s with
    | some (vals, rest) => some ((hi * 256 + lo) :: vals, rest)
    | none => none
  | _ + 1, _ => none

/-- Read one big-endian `u16` raw value (zerocopy `read_from_prefix` for a
2-byte field): `none` when fewer than 2 bytes remain. -/
def readU16 : List Nat → Option (Nat × List Nat)
  | hi :: lo :: s => some (hi * 256 + lo, s)
  | _ => none

/-- Signed interpretation of a big-endian `i16` (the `Ampere` raw value). -/
def i16OfRaw (v : Nat) : Int :=
  if v % 65536 < 32768 then (v % 65536 : Int) else (v % 65536 : Int) - 65536

/-- Per-pack measurement block (raw values; `pack_current` is the signed `i16`). -/
structure PackData where
  cell_voltages : List Nat
  temperatures : List Nat
  pack_current : Int
  pack_voltage : Nat
  pack_remaining : Nat
  user_defined : Nat
  total_capacity : Nat
  cell_cycles : Nat
  len_bytes : Nat
  deriving DecidableEq, Repr

/-- `PackData::from_bytes`, following `get_analog_value.rs` step by step:

* empty buffer → `InvalidInput`;
* voltage count byte, then `ref_from_prefix_with_elems` for the voltages
  (`InvalidInput` when short);
* `rest.split_at(1)` for the temperature count — this **panics** when `rest`
  is empty (`split_at` with `mid > len`), then the temperature array
  (`InvalidInput` when short);
* current / voltage / remaining via `read_from_prefix` (`InvalidInput` when
  short); the user-defined byte via `first()` (`InvalidInput` when short);
  total capacity via `read_from_prefix` (`InvalidInput` when short);
* cycle count via unchecked indexing `rest[0]`, `rest[1]` — this **panics**
  when fewer than two bytes remain;
* `len_bytes` is the number of consumed bytes. -/
def PackData.from_bytes (buf : List Nat) : RRes AVErr PackData :=
  match buf with
  | [] => .err .InvalidInput
  | volt_count :: r0 =>
    match readU16s volt_count r0 with
    | none => .err .InvalidInput
    | some (volts, r1) =>
      match r1 with
      | [] => .crash
      | temp_count :: r2 =>
        match readU16s temp_count r2 with
        | none => .err .InvalidInput
        | some (temps, r3) =>
          match readU16 r3 with
          | none => .err .InvalidInput
          | some (current, r4) =>
            match readU16 r4 with
            | none => .err .InvalidInput
            | some (voltage, r5) =>
              match readU16 r5 with
              | none => .err .InvalidInput
              | some (remaining, r6) =>
                match r6 with
                | [] => .err .InvalidInput
                | user_defined :: r7 =>
                  match readU16 r7 with
                  | none => .err .InvalidInput
                  | some (capacity, r8) =>
                    match r8 with
                    | b0 :: b1 :: r9 =>
                      .ok { cell_voltages := volts
                            temperatures := temps
                            pack_current := i16OfRaw current
                            pack_voltage := voltage
                            pack_remaining := remaining
                            user_defined := user_defined
                            total_capacity := capacity
                            cell_cycles := b0 * 256 + b1
                            len_bytes := buf.length - r9.length }
                    | _ => .crash

/-- `PackData::len`. -/
def PackData.len (p : PackData) : Nat :=
  p.len_bytes

/-- `AnalogValueResponse`: flags byte, pack count, and the remaining buffer
holding the back-to-back `PackData` blocks. -/
structure AnalogValueResponse where
  buf : List Nat
  flags : Nat
  pack_count : Nat
  deriving DecidableEq, Repr

/-- `AnalogValueResponse::from_bytes`: the first two bytes are
`{flags, pack_count}`; fewer than two bytes is `InvalidInput`. -/
def AnalogValueResponse.from_bytes (buf : List Nat) : Except AVErr AnalogValueResponse :=
  match buf with
  | flags :: pack_count :: rest => .ok ⟨rest, flags, pack_count⟩
  | _ => .error .InvalidInput

/-- `AnalogValueResponse::get_pack_count`. -/
def AnalogValueResponse.get_pack_count (r : AnalogValueResponse) : Nat :=
  r.pack_count

/-- The `for i in 0..pack_number` loop of `get_pack`: parse one pack, drop the
consumed bytes, repeat; then parse the pack at the cursor. -/
def getPackLoop : Nat → List Nat → RRes AVErr PackData
  | 0, rest => PackData.from_bytes rest
  | k + 1, rest =>
    match PackData.from_bytes rest with
    | .err e => .err e
    | .crash => .crash
    | .ok pack => getPackLoop k (rest.drop pack.len)

/-- `AnalogValueResponse::get_pack`: an index `≥ pack_count` is rejected with
`InvalidInput`; otherwise the pack is located by the sequential walk. -/
def AnalogValueResponse.get_pack (r : AnalogValueResponse) (pack_number : Nat) :
    RRes AVErr PackData :=
  if pack_number ≥ r.get_pack_count then .err .InvalidInput
  else getPackLoop pack_number r.buf

/-- The offset-accumulation walk the spec describes: skip the first `k` packs
by re-parsing each one purely for its byte length, returning the remaining
buffer at which pack `k` starts. -/
def skipPacks : Nat → List Nat → RRes AVErr (List Nat)
  | 0, buf => .ok buf
  | k + 1, buf =>
    match PackData.from_bytes buf with
    | .err e => .err e
    | .crash => .crash
    | .ok pack => skipPacks k (buf.drop pack.len)

/-- Apply `u16_from_hex` to a 4-byte buffer (the `&[u8; 4]` argument of the
Rust function). -/
def u16_from_hex_list : List Nat → Except DecodeError Nat
  | [a, b, c, d] => u16_from_hex a b c d
  | _ => .error .InvalidHex

/-! ## Test vectors used by several theorems -/

/-- The hex-encoded fields (version `0x20`, address 1, CID1 `0x46`, response
code `Normal`, length field for one payload byte, payload byte `0x01`) of a
well-formed response frame. -/
def exampleBody : List Nat :=
  u8_encode_hex 0x20 ++ u8_encode_hex 0x01 ++ u8_encode_hex 0x46 ++ u8_encode_hex 0x00
    ++ u16_encode_hex (InfoLength.new 2) ++ u8_encode_hex 0x01

/-- A complete well-formed response-frame stream carrying the payload `[0x01]`. -/
def exampleStream : List Nat :=
  [Frame.SOI] ++ exampleBody ++ u16_encode_hex (calculate_checksum exampleBody) ++ [Frame.EOI]

/-! ## Shared lemmas -/

theorem hexDigitVal_hexDigit : ∀ n < 16, hexDigitVal (hexDigit n) = some n := by
  decide

theorem u8_from_hex_encode {v : Nat} (h : v < 256) :
    u8_from_hex (hexDigit (v / 16 % 16)) (hexDigit (v % 16)) = .ok v := by
  unfold u8_from_hex
  rw [hexDigitVal_hexDigit _ (Nat.mod_lt _ (by omega)),
    hexDigitVal_hexDigit _ (Nat.mod_lt _ (by omega))]
  exact congrArg Except.ok (by omega)

theorem u16_from_hex_encode {v : Nat} (h : v < 65536) :
    u16_from_hex (hexDigit (v / 4096 % 16)) (hexDigit (v / 256 % 16))
      (hexDigit (v / 16 % 16)) (hexDigit (v % 16)) = .ok v := by
  unfold u16_from_hex
  rw [hexDigitVal_hexDigit _ (Nat.mod_lt _ (by omega)),
    hexDigitVal_hexDigit _ (Nat.mod_lt _ (by omega)),
    hexDigitVal_hexDigit _ (Nat.mod_lt _ (by omega)),
    hexDigitVal_hexDigit _ (Nat.mod_lt _ (by omega))]
  exact congrArg Except.ok (by omega)

theorem Checksum.update_append (acc : Nat) (a b : List Nat) :
    Checksum.update acc (a ++ b) = Checksum.update (Checksum.update acc a) b := by
  unfold Checksum.update
  exact List.foldl_append _ _ _ _

theorem Checksum.update_mod (data : List Nat) :
    ∀ acc, Checksum.update acc data % 65536 = (acc + data.sum) % 65536 := by
  induction data with
  | nil => intro acc; simp [Checksum.update]
  | cons x xs ih =>
    intro acc
    have h := ih ((acc + x) % 4294967296)
    simp only [Checksum.update, List.foldl] at h ⊢
    rw [h, List.sum_cons]
    omega

theorem Checksum.finalize_eq (acc : Nat) :
    Checksum.finalize acc = (65535 - acc % 65536 + 1) % 65536 := by
  unfold Checksum.finalize
  omega

theorem calculate_checksum_eq (data : List Nat) :
    calculate_checksum data = Checksum.finalize (Checksum.update 0 data) :=
  rfl

theorem InfoLength.new_lt (len : Nat) : InfoLength.new len < 65536 :=
  Nat.mod_lt _ (by omega)

theorem InfoLength.length_new {L : Nat} (h : L ≤ 4095) :
    InfoLength.length (InfoLength.new L) = L := by
  simp only [InfoLength.new, InfoLength.length]
  omega

theorem InfoLength.validate_new {L : Nat} (h : L ≤ 4095) :
    InfoLength.validate (InfoLength.new L) = true := by
  unfold InfoLength.validate
  rw [InfoLength.length_new h]
  exact beq_self_eq_true _

/-! ## Claims -/

/-- **C6.** For every byte sequence the finalized checksum equals the bitwise
complement of the byte sum modulo 65536, plus one, truncated to 16 bits
(`(65535 - sum % 65536 + 1) % 65536`); the checksum over the 16 ASCII bytes
`"1203400456ABCEFE"` finalizes to `0xFC71`; the wrap case where the byte sum
is a multiple of 65536 yields 0; and the frame codec's reusable `Checksum`
engine computes the same value as `util::calculate_checksum`. -/
theorem c6_checksum_complement :
    (∀ data : List Nat,
        calculate_checksum data = (65535 - data.sum % 65536 + 1) % 65536)
    ∧ calculate_checksum
        [0x31, 0x32, 0x30, 0x33, 0x34, 0x30, 0x30, 0x34,
         0x35, 0x36, 0x41, 0x42, 0x43, 0x45, 0x46, 0x45] = 0xFC71
    ∧ calculate_checksum (List.replicate 512 128) = 0
    ∧ ∀ data : List Nat,
        Checksum.finalize (Checksum.update 0 data) = calculate_checksum data := by
  have hgen : ∀ data : List Nat,
      calculate_checksum data = (65535 - data.sum % 65536 + 1) % 65536 := by
    intro data
    rw [calculate_checksum_eq, Checksum.finalize_eq, Checksum.update_mod data 0]
    omega
  refine ⟨hgen, ?_, ?_, fun data => rfl⟩
  · rw [hgen]; rfl
  · rw [hgen, List.sum_replicate]; rfl

/-- **C7.** Every 12-bit length `L` yields a length field that passes its own
validation, and hex-encoding then hex-decoding the field returns it
unchanged — including lengths whose three-nibble sum is a multiple of 16,
where the 4-bit self-checksum wraps to zero. -/
theorem c7_length_field_roundtrip (L : Nat) (h : L ≤ 4095) :
    InfoLength.validate (InfoLength.new L) = true
    ∧ u16_from_hex_list (InfoLength.encode_hex (InfoLength.new L))
        = .ok (InfoLength.new L) := by
  refine ⟨InfoLength.validate_new h, ?_⟩
  show u16_from_hex _ _ _ _ = _
  exact u16_from_hex_encode (InfoLength.new_lt L)

/-- Witness for C7 at `L = 0x880` (nibble sum `16`, the wrap case) -/
theorem c7_witness :
    InfoLength.validate (InfoLength.new 0x880) = true
    ∧ u16_from_hex_list (InfoLength.encode_hex (InfoLength.new 0x880))
        = .ok (InfoLength.new 0x880) :=
  c7_length_field_roundtrip 0x880 (by decide)

/-- Every successfully decoded frame carries its wire `CID2` as a
`Cid2.Response` (decode always parses `CID2` with `ResponseCode::decode_hex`
and stores it via `Into<Cid2>`). -/
theorem decode_ok_response (stream buf : List Nat) (fr : Frame)
    (h : Frame.decode stream buf = .ok fr) : ∃ r, fr.cid2 = .Response r := by
  unfold Frame.decode at h
  iterate 60 (all_goals (first | exact RRes.noConfusion h | split at h | (dsimp only at h) | skip))
  all_goals (injection h with h; subst h; exact ⟨_, rfl⟩)

/-- **C5.** Encoding a frame with version 2.8, address 1, command
`GetProtocolVersion` and empty payload writes exactly the bytes
`~2801464F0000FD91\r`, and encoding a frame with version 2.0, address 1,
command `GetAnalogValue` and payload `[0x01]` writes exactly the 20 bytes
`7E 32 30 30 31 34 36 34 32 45 30 30 32 30 31 46 44 33 35 0D`. -/
theorem c5_encode_vectors :
    Frame.encode (Frame.new (Version.new 2 8) 1 (.Command .GetProtocolVersion) []) []
      = ([0x7E, 0x32, 0x38, 0x30, 0x31, 0x34, 0x36, 0x34, 0x46,
          0x30, 0x30, 0x30, 0x30, 0x46, 0x44, 0x39, 0x31, 0x0D], .ok ())
    ∧ Frame.encode (Frame.new (Version.new 2 0) 1 (.Command .GetAnalogValue) [0x01]) []
      = ([0x7E, 0x32, 0x30, 0x30, 0x31, 0x34, 0x36, 0x34, 0x32,
          0x45, 0x30, 0x30, 0x32, 0x30, 0x31, 0x46, 0x44, 0x33, 0x35, 0x0D], .ok ()) :=
  ⟨rfl, rfl⟩

/-- Encoding any frame with more than `MAX_UNENCODED_PAYLOAD_LEN = 2047`
payload bytes returns `InvalidInput` without writing. -/
theorem encode_oversized (f : Frame) (out : List Nat) (h : 2047 < f.info.length) :
    f.encode out = (out, .error .InvalidInput) := by
  unfold Frame.encode
  rw [if_pos h]

/-- **C3** (counterexample): encoding a frame whose payload has 2048 bytes
(longer than `MAX_UNENCODED_PAYLOAD_LEN = 2047`) fails with `InvalidInput`,
not with the `Internal` variant the claim names. -/
theorem c3_counterexample :
    Frame.encode (Frame.new (Version.new 2 8) 1 (.Command .GetAnalogValue)
        (List.replicate 2048 0)) []
      = ([], .error .InvalidInput)
    ∧ Error.InvalidInput ≠ Error.Internal :=
  ⟨encode_oversized _ []
    (show 2047 < (List.replicate 2048 0).length by rw [List.length_replicate]; omega),
   by decide⟩

/-- **C3** (amended): for every frame whose payload is longer than 2047 bytes,
`Frame::encode` fails with the `InvalidInput` error variant and writes no
bytes to the output before rejecting. -/
theorem c3_oversized_payload_rejected (f : Frame) (out : List Nat)
    (h : 2047 < f.info.length) :
    f.encode out = (out, .error .InvalidInput) :=
  encode_oversized f out h

/-- Witness for C3 at a concrete 2048-byte frame. -/
theorem c3_witness :
    Frame.encode (Frame.new (Version.new 2 0) 1 (.Command .GetAnalogValue)
        (List.replicate 2048 1)) []
      = ([], .error .InvalidInput) :=
  c3_oversized_payload_rejected _ []
    (show 2047 < (List.replicate 2048 1).length by rw [List.length_replicate]; omega)


/-- **C10** (counterexample): a frame whose `cid2` is a `Response` variant but
whose payload exceeds 2047 bytes is rejected with `InvalidInput`, not
`Internal` — the payload-size check runs first, so the claim's universal
statement over all `Response` frames fails. -/
theorem c10_counterexample :
    Frame.encode (Frame.new (Version.new 2 0) 1 (.Response .Normal)
        (List.replicate 2048 0)) []
      = ([], .error .InvalidInput)
    ∧ Error.InvalidInput ≠ Error.Internal :=
  ⟨encode_oversized _ []
    (show 2047 < (List.replicate 2048 0).length by rw [List.length_replicate]; omega),
   by decide⟩

/-- **C10** (amended): `Frame::encode` succeeds only for command frames: every
frame whose `cid2` is a `Response` variant *and whose payload is within the
2047-byte limit* is rejected with the `Internal` error having written no
bytes; and every frame produced by `Frame::decode` stores the wire `CID2` as
a response code. -/
theorem c10_response_frames_not_encodable :
    (∀ (f : Frame) (out : List Nat) (r : ResponseCode),
        f.cid2 = .Response r → f.info.length ≤ 2047 →
        f.encode out = (out, .error .Internal))
    ∧ ∀ (stream buf : List Nat) (fr : Frame),
        Frame.decode stream buf = .ok fr → ∃ r, fr.cid2 = .Response r := by
  refine ⟨?_, fun stream buf fr h => decode_ok_response stream buf fr h⟩
  intro f out r hc hlen
  unfold Frame.encode
  rw [if_neg (by omega), hc]

/-- Witness for C10 at a concrete small `Response` frame. -/
theorem c10_witness :
    Frame.encode (Frame.new (Version.new 2 0) 1 (.Response .Normal) [0x01]) []
      = ([], .error .Internal) :=
  c10_response_frames_not_encodable.1 _ [] .Normal rfl (by decide)

/-- **C1** (refuting theorem): decoding a well-formed frame whose `LENGTH` is 2
(one raw payload byte, `0x01`) from a 10-byte buffer pre-filled with `0xAA`
succeeds, but the returned frame's `info` slice is
`&info_buf[..2] = [0x01, 0xAA]` — the hex-encoded length of bytes, half of
them never decoded — although exactly `LENGTH/2 = 1` byte was read and
decoded; and decoding the same stream into a buffer of exactly the required
size `LENGTH/2 = 1` panics on the out-of-range slice `&info_buf[..2]`. -/
theorem c1_decode_info_slice_doubled :
    Frame.decode exampleStream (List.replicate 10 0xAA)
      = .ok (Frame.new 0x20 0x01 (.Response .Normal) [0x01, 0xAA])
    ∧ InfoLength.length (InfoLength.new 2) / 2 = 1
    ∧ Frame.decode exampleStream (List.replicate 1 0xBB) = .crash :=
  ⟨rfl, rfl, rfl⟩

/-- **C2** (refuting theorem): `PackData::from_bytes` is not total — it panics
(out-of-bounds `split_at` / index) instead of returning `InvalidInput` when
the buffer runs out at the temperature-count step (input `[0]`) or at the
16-bit cycle-count step (11 zero bytes); a 13-byte buffer is the shortest
that parses, and genuinely guarded steps do return `InvalidInput`. -/
theorem c2_from_bytes_short_input_panics :
    PackData.from_bytes [0] = .crash
    ∧ PackData.from_bytes (List.replicate 11 0) = .crash
    ∧ PackData.from_bytes [] = .err .InvalidInput
    ∧ PackData.from_bytes [1] = .err .InvalidInput
    ∧ PackData.from_bytes (List.replicate 13 0)
        = .ok ⟨[], [], 0, 0, 0, 0, 0, 0, 13⟩ :=
  ⟨rfl, rfl, rfl, rfl, rfl⟩

/-- **C4** (counterexample): decoding a well-formed frame with a validated
length field of 2 (one payload byte) into an empty caller buffer fails with
the `Internal` error variant, not the `InvalidInput` variant the claim
names. -/
theorem c4_counterexample :
    Frame.decode exampleStream [] = .err .Internal
    ∧ Error.Internal ≠ Error.InvalidInput :=
  ⟨rfl, by decide⟩

/-- Hex-decoding the two encoded digits of a response code's byte value
recovers the response code. -/
theorem rc_decode_hex_encode (rc : ResponseCode) :
    ResponseCode.decode_hex (hexDigit (rc.code / 16 % 16)) (hexDigit (rc.code % 16)) = .ok rc := by
  cases rc <;> rfl

/-- Hex-decoding the two encoded digits of `0x46` yields `Cid1::BatteryData`. -/
theorem cid1_decode_hex_encode :
    Cid1.decode_hex (hexDigit (70 / 16 % 16)) (hexDigit (70 % 16)) = .ok .BatteryData := rfl

/-- Running the payload loop of `Frame::decode` over the hex encoding of
`payload` decodes exactly `payload`, leaves the trailing stream untouched and
accumulates the checksum of the encoded span. -/
theorem decodePayloadLoop_encoded (payload : List Nat) :
    ∀ (rest : List Nat) (acc : Nat), (∀ x ∈ payload, x < 256) →
    decodePayloadLoop payload.length ((payload.map u8_encode_hex).flatten ++ rest) acc
      = .ok (payload, rest, Checksum.update acc (payload.map u8_encode_hex).flatten) := by
  induction payload with
  | nil =>
    intro rest acc h
    simp [decodePayloadLoop, Checksum.update]
  | cons x xs ih =>
    intro rest acc h
    simp only [List.map_cons, List.flatten_cons, List.length_cons, u8_encode_hex,
      List.cons_append, List.nil_append, List.append_assoc]
    unfold decodePayloadLoop
    rw [u8_from_hex_encode (h x (by simp))]
    dsimp only
    rw [ih rest _ (fun y hy => h y (by simp [hy]))]
    have hupd : Checksum.update acc
          (hexDigit (x / 16 % 16) :: hexDigit (x % 16) :: (List.map u8_encode_hex xs).flatten)
        = Checksum.update (Checksum.update acc [hexDigit (x / 16 % 16), hexDigit (x % 16)])
            (List.map u8_encode_hex xs).flatten := by
      rw [show (hexDigit (x / 16 % 16) :: hexDigit (x % 16) :: (List.map u8_encode_hex xs).flatten)
          = [hexDigit (x / 16 % 16), hexDigit (x % 16)] ++ (List.map u8_encode_hex xs).flatten
          from rfl,
        Checksum.update_append]
    rw [hupd]

/-- **C4** (amended): for every stream whose header carries a validated length
field for `n` hex digits and every caller buffer shorter than the `n / 2`
decoded payload bytes require, `Frame::decode` fails with the `Internal`
error variant, whatever follows the length field on the stream. -/
theorem c4_small_buffer_internal (n ver adr : Nat) (rc : ResponseCode) (rest buf : List Nat)
    (hn : n ≤ 4095) (hver : ver < 256) (hadr : adr < 256)
    (hbuf : buf.length < n / 2) :
    Frame.decode ([Frame.SOI] ++ u8_encode_hex ver ++ u8_encode_hex adr
      ++ u8_encode_hex 0x46 ++ u8_encode_hex rc.code
      ++ u16_encode_hex (InfoLength.new n) ++ rest) buf = .err .Internal := by
  simp only [u8_encode_hex, u16_encode_hex, List.cons_append, List.nil_append]
  unfold Frame.decode
  simp only [Version.decode_hex, u8_from_hex_encode hver, u8_from_hex_encode hadr,
    cid1_decode_hex_encode, rc_decode_hex_encode, InfoLength.decode_hex,
    u16_from_hex_encode (InfoLength.new_lt n), InfoLength.validate_new hn,
    Bool.not_true, InfoLength.length_new hn]
  rw [if_pos hbuf]
  simp

/-- Witness for C4 at a concrete stream (length field 2, empty buffer). -/
theorem c4_witness :
    Frame.decode ([Frame.SOI] ++ u8_encode_hex 0x20 ++ u8_encode_hex 0x01
      ++ u8_encode_hex 0x46 ++ u8_encode_hex ResponseCode.Normal.code
      ++ u16_encode_hex (InfoLength.new 2) ++ [0x30, 0x31]) [] = .err .Internal :=
  c4_small_buffer_internal 2 0x20 0x01 .Normal [0x30, 0x31] []
    (by decide) (by decide) (by decide) (by decide)

/-- **C8.** Every stream that is a well-formed frame — valid start marker,
hex-decodable header, validated length field, hex-encoded payload, large
enough caller buffer — but whose transmitted 4-hex-digit `CHKSUM` value `c`
differs from the checksum computed over the hex-encoded fields from version
through payload, fails `Frame::decode` with the checksum error; it is never
decoded successfully. -/
theorem c8_corrupted_checksum_rejected (ver adr c : Nat) (rc : ResponseCode)
    (payload buf : List Nat)
    (hver : ver < 256) (hadr : adr < 256) (hc : c < 65536)
    (hlen : 2 * payload.length ≤ 4095)
    (hbuf : payload.length ≤ buf.length)
    (hbytes : ∀ x ∈ payload, x < 256)
    (hne : c ≠ calculate_checksum (u8_encode_hex ver ++ u8_encode_hex adr
      ++ u8_encode_hex 0x46 ++ u8_encode_hex rc.code
      ++ u16_encode_hex (InfoLength.new (2 * payload.length))
      ++ (payload.map u8_encode_hex).flatten)) :
    Frame.decode ([Frame.SOI] ++ u8_encode_hex ver ++ u8_encode_hex adr
      ++ u8_encode_hex 0x46 ++ u8_encode_hex rc.code
      ++ u16_encode_hex (InfoLength.new (2 * payload.length))
      ++ (payload.map u8_encode_hex).flatten
      ++ u16_encode_hex c ++ [Frame.EOI]) buf = .err .Cecksum := by
  have h2 : 2 * payload.length / 2 = payload.length := by omega
  rw [calculate_checksum_eq] at hne
  simp only [u8_encode_hex, u16_encode_hex, Checksum.update_append] at hne
  simp only [u8_encode_hex, u16_encode_hex, List.cons_append, List.nil_append,
    List.append_assoc]
  unfold Frame.decode
  simp only [Version.decode_hex, u8_from_hex_encode hver, u8_from_hex_encode hadr,
    cid1_decode_hex_encode, rc_decode_hex_encode, InfoLength.decode_hex,
    u16_from_hex_encode (InfoLength.new_lt _), InfoLength.validate_new hlen,
    Bool.not_true, InfoLength.length_new hlen, h2]
  rw [if_neg (by simp)]
  rw [if_neg (Nat.not_lt.mpr hbuf)]
  rw [decodePayloadLoop_encoded payload _ _ hbytes]
  dsimp only
  rw [u16_from_hex_encode hc]
  dsimp only
  rw [if_pos (bne_iff_ne.mpr hne)]
  simp

/-- Witness for C8: the example frame with its checksum replaced by 0. -/
theorem c8_witness :
    Frame.decode ([Frame.SOI] ++ u8_encode_hex 0x20 ++ u8_encode_hex 0x01
      ++ u8_encode_hex 0x46 ++ u8_encode_hex ResponseCode.Normal.code
      ++ u16_encode_hex (InfoLength.new (2 * [0x01].length))
      ++ ([0x01].map u8_encode_hex).flatten
      ++ u16_encode_hex 0 ++ [Frame.EOI]) (List.replicate 4 0) = .err .Cecksum :=
  c8_corrupted_checksum_rejected 0x20 0x01 0 .Normal [0x01] (List.replicate 4 0)
    (by decide) (by decide) (by decide) (by decide) (by decide) (by decide) (by decide)

/-- The skip loop of `get_pack` equals the offset-accumulation walk followed by
one final parse. -/
theorem getPackLoop_eq_skipPacks (k : Nat) : ∀ buf : List Nat,
    getPackLoop k buf = match skipPacks k buf with
      | .ok rest => PackData.from_bytes rest
      | .err e => .err e
      | .crash => .crash := by
  induction k with
  | zero => intro buf; rfl
  | succ k ih =>
    intro buf
    simp only [getPackLoop, skipPacks]
    cases PackData.from_bytes buf with
    | ok p => exact ih _
    | err e => rfl
    | crash => rfl

/-- **C9.** For every `AnalogValueResponse` and index `k`: when
`k ≥ pack_count`, `get_pack k` fails with `InvalidInput`; when
`k < pack_count`, `get_pack k` is resolved by the O(k) forward walk — it
equals re-parsing packs `0..k-1` purely to accumulate their byte lengths
(`skipPacks`) and then parsing `PackData` at the resulting offset. -/
theorem c9_get_pack_walk (r : AnalogValueResponse) (k : Nat) :
    (r.get_pack_count ≤ k → r.get_pack k = .err .InvalidInput)
    ∧ (k < r.get_pack_count →
        r.get_pack k = match skipPacks k r.buf with
          | .ok rest => PackData.from_bytes rest
          | .err e => .err e
          | .crash => .crash) := by
  constructor
  · intro h
    unfold AnalogValueResponse.get_pack
    rw [if_pos h]
  · intro h
    unfold AnalogValueResponse.get_pack
    rw [if_neg (by omega)]
    exact getPackLoop_eq_skipPacks k r.buf

/-- Witness for C9 on a two-pack response: index 2 is out of range, and pack 1
is located by walking over pack 0. -/
theorem c9_witness :
    (⟨List.replicate 26 0, 0x11, 2⟩ : AnalogValueResponse).get_pack 2
      = .err .InvalidInput
    ∧ (⟨List.replicate 26 0, 0x11, 2⟩ : AnalogValueResponse).get_pack 1
      = PackData.from_bytes (List.replicate 13 0) :=
  ⟨(c9_get_pack_walk ⟨List.replicate 26 0, 0x11, 2⟩ 2).1 (by decide),
   (c9_get_pack_walk ⟨List.replicate 26 0, 0x11, 2⟩ 1).2 (by decide)⟩

end Pylon
